import Mathlib

/-!
# Selene `Selector` (src/include/Selector.h)

A shallow embedding of the lazy path accessor of Selene and of the part of the
embedded stack machine it drives.  The accessor's member functions are
translated one by one; the stack machine (Lua's C API), the marshaling helpers
of `exotics.h` and the environment manager of `State.h` are external to the
header and are modelled from the specification.

Conventions of the embedding:

* the stack machine is threaded explicitly: a C++ `std::function<void()>` that
  acts on `_state._l` becomes a function `lua_State → Except Error lua_State`;
  an error of the runtime (or undefined behaviour of the C++ code) is the
  `Except.error` branch, after which nothing else runs;
* the mutable member `_functor` is threaded explicitly too: a member function
  returns the accessor as it is after the call;
* native values handed to the marshaling layer are represented by the runtime
  value they marshal to.
-/

namespace sel

/-! ## The stack machine -/

/-- Runtime values held in the working area of the stack machine. -/
inductive Value where
  | nil
  | bool (b : Bool)
  | integer (n : Int)
  | string (s : String)
  | function (ref : Nat)
  | table (ref : Nat)
  deriving DecidableEq, Repr

/-- Failures of an operation.  `nullFunctor` stands for dereferencing an empty
`std::unique_ptr<Functor>`. -/
inductive Error where
  | notCallable
  | stackUnderflow
  | nullFunctor
  | typeMismatch
  | runtime (msg : String)
  deriving DecidableEq, Repr

/-- Record of the stack-machine primitives that were run (a ghost trace). -/
inductive Event where
  | push (v : Value)
  | call (nargs nresults : Nat)
  | settop (idx : Nat)
  | pop (n : Nat)
  | deferred (label : String)
  deriving DecidableEq, Repr

/-- Modelled from the spec: the stack-machine context (`lua_State`, not part of
the sources).  `stack` is the working area, bottom first; `functions` gives the
behaviour of the callable runtime values; `trace` records the primitives that
were run, oldest first. -/
structure lua_State where
  stack : List Value
  functions : Nat → Option (List Value → Except Error (List Value))
  trace : List Event

/-- The deferred operation type `Fun = std::function<void()>`. -/
abbrev Fun := lua_State → Except Error lua_State

/-- The type `PFun = std::function<void(Fun)>`. -/
abbrev PFun := Fun → Fun

/-- Runs deferred operations one after the other, first to last; a failing
operation stops the run. -/
def seq (ops : List Fun) : Fun := fun l =>
  List.foldlM (fun st op => op st) l ops

/-- Modelled from the spec: `resetWorkingArea` (`lua_settop`).  Sets the height
of the working area to `idx`, dropping the values above it or filling with nil. -/
def lua_settop (idx : Nat) : Fun := fun l =>
  .ok { l with
    stack := (l.stack ++ List.replicate (idx - l.stack.length) Value.nil).take idx
    trace := l.trace ++ [Event.settop idx] }

/-- Modelled from the spec: the adjustment of the results of a call to the
`resultCount` asked for (extra values dropped, missing values nil). -/
def adjustResults (nresults : Nat) (rs : List Value) : List Value :=
  (rs ++ List.replicate (nresults - rs.length) Value.nil).take nresults

/-- Modelled from the spec: `callTarget(context, argCount, resultCount)`
(`lua_call`).  The working area holds the target and above it `nargs`
arguments; they are replaced by exactly `nresults` results.  Fails if the
target is not callable. -/
def lua_call (nargs nresults : Nat) : Fun := fun l =>
  if l.stack.length < nargs + 1 then .error Error.stackUnderflow
  else
    let base := l.stack.length - (nargs + 1)
    match l.stack.get? base with
    | some (Value.function ref) =>
      match l.functions ref with
      | some body =>
        match body (l.stack.drop (base + 1)) with
        | .ok rs =>
          .ok { l with
            stack := l.stack.take base ++ adjustResults nresults rs
            trace := l.trace ++ [Event.call nargs nresults] }
        | .error e => .error e
      | none => .error Error.notCallable
    | _ => .error Error.notCallable

namespace detail

/-- Modelled from the spec: `pushValue(context, T)` (`detail::_push` of
`exotics.h`) for one value. -/
def _push (t : Value) : Fun := fun l =>
  .ok { l with stack := l.stack ++ [t], trace := l.trace ++ [Event.push t] }

/-- Modelled from the spec: `detail::_push_n`, which pushes the arguments in
their given order. -/
def _push_n : List Value → Fun
  | [], l => .ok l
  | a :: rest, l =>
    match _push a l with
    | .ok l1 => _push_n rest l1
    | .error e => .error e

/-- Modelled from the spec: `detail::_push` for a tuple of captured arguments,
pushed first to last. -/
def _push_tuple (tuple_args : List Value) : Fun := _push_n tuple_args

/-- Modelled from the spec: `detail::_pop_n_reset<Ret...>` with
`n = sizeof...(Ret)`: takes the `n` topmost values in the order they were
pushed and resets the working area. -/
def _pop_n_reset (n : Nat) (l : lua_State) : Except Error (List Value × lua_State) :=
  if l.stack.length < n then .error Error.stackUnderflow
  else
    match lua_settop 0 { l with trace := l.trace ++ [Event.pop n] } with
    | .ok l1 => .ok (l.stack.drop (l.stack.length - n), l1)
    | .error e => .error e

/-- Modelled from the spec: `detail::_pop(_id<sel::function<R(Args...)>>, l)`,
which removes the topmost value and hands it back as the callable. -/
def _pop_function (l : lua_State) : Except Error (Value × lua_State) :=
  match l.stack.getLast? with
  | some v => .ok (v, { l with stack := l.stack.dropLast, trace := l.trace ++ [Event.pop 1] })
  | none => .error Error.stackUnderflow

end detail

/-! ## The environment -/

/-- Handle of a native callable. -/
abbrev NativeFun := Nat

/-- Handle of a native object. -/
abbrev NativeObj := Nat

/-- Modelled from the spec: the environment manager (`State`, declared in
`State.h`, not part of the sources).  Only its registration entry points
`registerCallable`, `registerObject` and `registerClass` are used by the
accessor; their behaviour is left arbitrary. -/
structure State where
  Register : NativeFun → Fun
  RegisterObj : NativeObj → List NativeFun → Fun
  RegisterClass : String → List NativeFun → Fun

/-! ## The accessor -/

/-- The type `Functor = std::function<void(int)>`; the argument is the number
of results asked for. -/
abbrev Selector.Functor := Nat → Fun

/-- The members of `class Selector`. -/
structure Selector where
  _name : String
  _state : State
  _traversal : List Fun
  _get : Fun
  _put : PFun
  _functor : Option Selector.Functor

namespace Selector

/-- The private constructor `Selector(name, s, traversal, get, put)`. -/
def ctor (name : String) (s : State) (traversal : List Fun) (get : Fun) (put : PFun) :
    Selector :=
  { _name := name, _state := s, _traversal := traversal, _get := get, _put := put,
    _functor := none }

/-- The iterator loop of `_traverse`, from `it` to `end()`. -/
def _traverse.loop : List Fun → Fun
  | [], l => .ok l
  | it :: rest, l =>
    match it l with
    | .ok l1 => _traverse.loop rest l1
    | .error e => .error e

/-- The member `_traverse()`. -/
def _traverse (s : Selector) : Fun := _traverse.loop s._traversal

/-- The copy constructor `Selector(const Selector &other)`; `_functor` is not
in the initialiser list, so it is default-initialised (empty). -/
def copy (other : Selector) : Selector :=
  { _name := other._name
    _state := other._state
    _traversal := other._traversal
    _get := other._get
    _put := other._put
    _functor := none }

/-- The destructor `~Selector()`. -/
def destructor (s : Selector) : Fun := fun l =>
  match s._functor with
  | some f => do
    let l1 ← s._traverse l
    let l2 ← s._get l1
    f 0 l2
  | none => .ok l

/-- The call operator `operator()(Args... args)`: stores the captured
arguments in `_functor` and returns `*this`. -/
def operator_call (s : Selector) (args : List Value) (l : lua_State) :
    Except Error (Selector × lua_State) :=
  let tuple_args := args
  let num_args := args.length
  let tmp : Functor := fun num_ret l => do
    let l1 ← detail._push_tuple tuple_args l
    lua_call num_args num_ret l1
  .ok ({ s with _functor := some tmp }, l)

/-- The member `Call<Ret...>(Args&&... args)`, with `nret = sizeof...(Ret)`. -/
def Call (s : Selector) (args : List Value) (nret : Nat) (l : lua_State) :
    Except Error (List Value × Selector × lua_State) := do
  let l1 ← s._traverse l
  let l2 ← s._get l1
  let l3 ← detail._push_n args l2
  let l4 ← lua_call args.length nret l3
  let (ret, l5) ← detail._pop_n_reset nret l4
  pure (ret, s, l5)

/-- The value assignment `operator=(T t)`. -/
def operator_assign (s : Selector) (t : Value) (l : lua_State) :
    Except Error (Selector × lua_State) := do
  let l1 ← s._traverse l
  let push : Fun := fun l => detail._push t l
  let l2 ← s._put push l1
  let l3 ← lua_settop 0 l2
  pure (s, l3)

/-- The member `SetObj(T &t, Funs... funs)`. -/
def SetObj (s : Selector) (t : NativeObj) (funs : List NativeFun) (l : lua_State) :
    Except Error (Selector × lua_State) := do
  let l1 ← s._traverse l
  let fun_tuple := funs
  let push : Fun := fun l => s._state.RegisterObj t fun_tuple l
  let l2 ← s._put push l1
  let l3 ← lua_settop 0 l2
  pure (s, l3)

/-- The member `SetClass<T, Args...>(Funs... funs)`. -/
def SetClass (s : Selector) (funs : List NativeFun) (l : lua_State) :
    Except Error (Selector × lua_State) := do
  let l1 ← s._traverse l
  let fun_tuple := funs
  let push : Fun := fun l => s._state.RegisterClass s._name fun_tuple l
  let l2 ← s._put push l1
  let l3 ← lua_settop 0 l2
  pure (s, l3)

/-- The native-callable assignment `operator=(std::function<Ret(Args...)> fun)`. -/
def operator_assign_function (s : Selector) (f : NativeFun) (l : lua_State) :
    Except Error (Selector × lua_State) := do
  let l1 ← s._traverse l
  let push : Fun := fun l => s._state.Register f l
  let l2 ← s._put push l1
  pure (s, l2)

/-- The native-callable assignment `operator=(Ret (*fun)(Args...))`. -/
def operator_assign_fnptr (s : Selector) (f : NativeFun) (l : lua_State) :
    Except Error (Selector × lua_State) := do
  let l1 ← s._traverse l
  let push : Fun := fun l => s._state.Register f l
  let l2 ← s._put push l1
  pure (s, l2)

/-- The member `GetTuple<Ret...>()`, with `nret = sizeof...(Ret)`; `*_functor`
on an empty pointer is the failure `nullFunctor`. -/
def GetTuple (s : Selector) (nret : Nat) (l : lua_State) :
    Except Error (List Value × Selector × lua_State) := do
  let l1 ← s._traverse l
  let l2 ← s._get l1
  let l3 ← match s._functor with
    | some f => f nret l2
    | none => .error Error.nullFunctor
  let (ret, l4) ← detail._pop_n_reset nret l3
  pure (ret, s, l4)

/-- The conversion `operator sel::function<R(Args...)>()`. -/
def operator_function (s : Selector) (l : lua_State) :
    Except Error (Value × Selector × lua_State) := do
  let l1 ← s._traverse l
  let l2 ← s._get l1
  let (s1, l3) ← match s._functor with
    | some f => do
      let l3 ← f 1 l2
      pure ({ s with _functor := none }, l3)
    | none => pure (s, l2)
  let (ret, l4) ← detail._pop_function l3
  let l5 ← lua_settop 0 l4
  pure (ret, s1, l5)

/-- Modelled from the spec: the conversion `operator std::string()` (declared
in the header, defined outside the sources): replay the plan, `get`, convert
the top of the working area to a string, reset the working area; fails on a
value that is not a string. -/
def operator_string (s : Selector) (l : lua_State) :
    Except Error (String × Selector × lua_State) := do
  let l1 ← s._traverse l
  let l2 ← s._get l1
  match l2.stack.getLast? with
  | some (Value.string str) => do
    let l3 ← lua_settop 0 l2
    pure (str, s, l3)
  | _ => .error Error.typeMismatch

end Selector

/-- A conversion operator `Selector::operator T()` declared in the header; the
definitions are outside the sources, so the equality operators take the
conversion they use as an argument. -/
abbrev Conversion (T : Type) := Selector → lua_State → Except Error (T × Selector × lua_State)

/-- The overload `operator==(const Selector &s, const char *c)`. -/
def operator_eq_sel_cstr (toStdString : Conversion String) (s : Selector) (c : String)
    (l : lua_State) : Except Error (Bool × Selector × lua_State) := do
  let (str, s1, l1) ← toStdString s l
  pure (decide (c = str), s1, l1)

/-- The overload `operator==(const char *c, const Selector &s)`. -/
def operator_eq_cstr_sel (toStdString : Conversion String) (c : String) (s : Selector)
    (l : lua_State) : Except Error (Bool × Selector × lua_State) := do
  let (str, s1, l1) ← toStdString s l
  pure (decide (c = str), s1, l1)

/-- How the operand `t` of a templated `operator==` is passed.  The parameter
is the forwarding reference `T&&`, so the operand decides what `T` is deduced
to: the value type `U` for an rvalue, `const U&` for a const lvalue, `U&` for a
non-const lvalue. -/
inductive Operand where
  | rvalue
  | const_lvalue
  | lvalue
  deriving DecidableEq, Repr

/-- The accessor object read through a `std::string&`: `_name` (line 15) is
the first member of the class, which has no base class and no virtual member,
so the storage of the object starts with it. -/
def Selector.read_as_string (s : Selector) : String := s._name

/-- The expression `T(s)` of the templated overloads.  With `T` a value type
or a reference to const it runs the conversion operator of the accessor.  With
`T` deduced as `U&` no conversion applies (the conversion operators return a
value, which cannot bind to `U&`), so the expression is a cast of the accessor
object itself to `U&`: it runs nothing and yields the storage of the object
read at type `U`, given by `readAs`. -/
def functional_cast {T : Type} (operand : Operand) (toT : Conversion T)
    (readAs : Selector → T) : Conversion T := fun s l =>
  match operand with
  | Operand.rvalue => toT s l
  | Operand.const_lvalue => toT s l
  | Operand.lvalue => .ok (readAs s, s, l)

/-- The overload `template <typename T> operator==(const Selector &s, T&& t)`. -/
def operator_eq_sel_T {T : Type} [BEq T] (operand : Operand) (toT : Conversion T)
    (readAs : Selector → T) (s : Selector) (t : T) (l : lua_State) :
    Except Error (Bool × Selector × lua_State) := do
  let (ts, s1, l1) ← functional_cast operand toT readAs s l
  pure (ts == t, s1, l1)

/-- The overload `template <typename T> operator==(T &&t, const Selector &s)`. -/
def operator_eq_T_sel {T : Type} [BEq T] (operand : Operand) (toT : Conversion T)
    (readAs : Selector → T) (t : T) (s : Selector) (l : lua_State) :
    Except Error (Bool × Selector × lua_State) := do
  let (ts, s1, l1) ← functional_cast operand toT readAs s l
  pure (ts == t, s1, l1)

/-! ## A concrete environment

A small runtime used to evaluate the member functions on explicit inputs: one
callable value (reference 7, integer addition) and accessors whose deferred
operations record a label in the trace. -/

namespace demo

/-- Sum of the integer arguments. -/
def sumInts : List Value → Int
  | [] => 0
  | Value.integer n :: rest => n + sumInts rest
  | _ :: rest => sumInts rest

/-- The callable values of the runtime: reference 7 adds its arguments. -/
def functions : Nat → Option (List Value → Except Error (List Value))
  | 7 => some (fun args => .ok [Value.integer (sumInts args)])
  | _ => none

/-- The initial context: empty working area, nothing recorded. -/
def l0 : lua_State := { stack := [], functions := functions, trace := [] }

/-- A deferred operation that pushes `v` and records `label`. -/
def pushes (label : String) (v : Value) : Fun := fun l =>
  .ok { l with stack := l.stack ++ [v], trace := l.trace ++ [Event.deferred label] }

/-- A `put` that runs the producer and stores the produced value, which
removes it from the working area. -/
def stores (label : String) : PFun := fun producer l => do
  let l1 ← producer l
  pure { l1 with stack := l1.stack.dropLast, trace := l1.trace ++ [Event.deferred label] }

/-- An environment whose registrations push a callable value. -/
def env : State :=
  { Register := fun f => detail._push (Value.function f)
    RegisterObj := fun t _ => detail._push (Value.table t)
    RegisterClass := fun _ _ => detail._push (Value.table 0) }

/-- The root accessor of the global `add`, bound to the callable 7. -/
def add : Selector :=
  Selector.ctor "add" env [] (pushes "get add" (Value.function 7)) (stores "put add")

/-- The chained accessor `lib["add"]`: its plan pushes the container `lib`
(table 1), which stays in the working area below the target. -/
def libAdd : Selector :=
  Selector.ctor "add" env [pushes "get lib" (Value.table 1)]
    (pushes "get lib.add" (Value.function 7)) (stores "put lib.add")

/-- The root accessor of the global `greeting`, bound to a string. -/
def greeting : Selector :=
  Selector.ctor "greeting" env [] (pushes "get greeting" (Value.string "foo"))
    (stores "put greeting")

/-- The pending call held by an accessor (the empty operation if none). -/
def pendingOf (s : Selector) : Selector.Functor :=
  match s._functor with
  | some f => f
  | none => fun _ l => .ok l

/-- The accessor left by a call operator (the given one if it failed). -/
def called (s : Selector) (args : List Value) : Selector :=
  match s.operator_call args l0 with
  | .ok (s1, _) => s1
  | .error _ => s

/-- The accessor `add` after the call-intent `add(2, 3)`. -/
def addCalled : Selector := called add [Value.integer 2, Value.integer 3]

/-- The accessor `lib["add"]` after the call-intent `lib["add"](2, 3)`. -/
def libAddCalled : Selector := called libAdd [Value.integer 2, Value.integer 3]

/-- The accessor `lib["add"]` after `lib["add"](1)` and then `lib["add"](2, 3)`. -/
def libAddCalledTwice : Selector :=
  called (called libAdd [Value.integer 1]) [Value.integer 2, Value.integer 3]

/-- The context with the given working area and trace. -/
def ctx (stack : List Value) (trace : List Event) : lua_State :=
  { stack := stack, functions := functions, trace := trace }

/-- What an operation left behind: the working area and the trace. -/
def observe (r : Except Error lua_State) : Option (List Value × List Event) :=
  match r with
  | .ok l => some (l.stack, l.trace)
  | .error _ => none

/-- What a member function left behind: its result, whether a call is still
pending, the working area and the trace. -/
def observeResult {α : Type} (r : Except Error (α × Selector × lua_State)) :
    Option (α × Bool × List Value × List Event) :=
  match r with
  | .ok (a, s, l) => some (a, s._functor.isSome, l.stack, l.trace)
  | .error _ => none

/-- What an assignment left behind: whether a call is pending, the working
area and the trace. -/
def observeAssign (r : Except Error (Selector × lua_State)) :
    Option (Bool × List Value × List Event) :=
  match r with
  | .ok (s, l) => some (s._functor.isSome, l.stack, l.trace)
  | .error _ => none

/-- Number of invocations of a call target recorded in a trace. -/
def callCount (tr : List Event) : Nat :=
  tr.countP (fun e => match e with | Event.call _ _ => true | _ => false)

/-- Call-intent `add(2, 3)`, results taken with `GetTuple<int>()`, then the
accessor goes out of scope. -/
def lifetimeGetTuple : Except Error lua_State := do
  let (s1, l1) ← add.operator_call [Value.integer 2, Value.integer 3] l0
  let (_, s2, l2) ← s1.GetTuple 1 l1
  s2.destructor l2

/-- Call-intent `add(2, 3)`, coerced to `sel::function`, then the accessor
goes out of scope. -/
def lifetimeFunction : Except Error lua_State := do
  let (s1, l1) ← add.operator_call [Value.integer 2, Value.integer 3] l0
  let (_, s2, l2) ← s1.operator_function l1
  s2.destructor l2

end demo

end sel

/-! ## Sequencing lemmas -/

namespace sel

theorem seq_nil_fun : seq [] = (pure : Fun) := rfl

theorem seq_cons_fun (op : Fun) (ops : List Fun) :
    seq (op :: ops) = fun l => op l >>= seq ops := rfl

theorem seq_cons (op : Fun) (ops : List Fun) (l : lua_State) :
    seq (op :: ops) l = op l >>= seq ops := rfl

theorem seq_append (a b : List Fun) (l : lua_State) :
    seq (a ++ b) l = seq a l >>= seq b := by
  simp only [seq, List.foldlM_append]
  rfl

/-- The iterator loop of `_traverse` runs the plan first to last. -/
theorem loop_eq_seq (ops : List Fun) (l : lua_State) :
    Selector._traverse.loop ops l = seq ops l := by
  induction ops generalizing l with
  | nil => rfl
  | cons op rest ih =>
    rw [seq_cons, Selector._traverse.loop]
    cases h : op l with
    | error e => rfl
    | ok l1 => simp [ih, bind, Except.bind]

theorem seq_plan_then (s : Selector) (rest : List Fun) (l : lua_State) :
    seq (s._traversal ++ rest) l = s._traverse l >>= seq rest := by
  rw [seq_append, Selector._traverse, loop_eq_seq]

/-! ## Primitives of the stack machine -/

theorem lua_settop_zero (l : lua_State) :
    lua_settop 0 l = .ok { l with stack := [], trace := l.trace ++ [Event.settop 0] } := by
  simp [lua_settop]

theorem push_n_ok (args : List Value) (l : lua_State) :
    detail._push_n args l =
      .ok { l with stack := l.stack ++ args, trace := l.trace ++ args.map Event.push } := by
  induction args generalizing l with
  | nil => simp [detail._push_n]
  | cons a rest ih => simp [detail._push_n, detail._push, ih]

theorem adjustResults_length (n : Nat) (rs : List Value) :
    (adjustResults n rs).length = n := by
  simp [adjustResults]
  omega

theorem adjustResults_exact (rs : List Value) : adjustResults rs.length rs = rs := by
  simp [adjustResults]

theorem pop_n_reset_ok (n : Nat) (l : lua_State) (ret : List Value) (l1 : lua_State)
    (h : detail._pop_n_reset n l = .ok (ret, l1)) :
    ret.length = n ∧ l1.stack = [] := by
  unfold detail._pop_n_reset at h
  split at h
  · cases h
  · rw [lua_settop_zero] at h
    simp only [Except.ok.injEq, Prod.mk.injEq] at h
    obtain ⟨h1, h2⟩ := h
    subst h1 h2
    simp
    omega

/-- The call primitive on a working area `below ++ [target] ++ args` whose
target is callable. -/
theorem lua_call_ok (below args rs : List Value) (ref : Nat)
    (body : List Value → Except Error (List Value)) (nresults : Nat) (l : lua_State)
    (hstack : l.stack = below ++ [Value.function ref] ++ args)
    (hfun : l.functions ref = some body) (hbody : body args = .ok rs) :
    lua_call args.length nresults l =
      .ok { l with
        stack := below ++ adjustResults nresults rs
        trace := l.trace ++ [Event.call args.length nresults] } := by
  have hlen : l.stack.length = below.length + 1 + args.length := by
    simp [hstack]
    omega
  have hbase : l.stack.length - (args.length + 1) = below.length := by omega
  have hget : l.stack.get? below.length = some (Value.function ref) := by
    rw [hstack, List.append_assoc, List.get?_eq_getElem?, List.getElem?_append_right (le_refl _)]
    simp
  have hdrop : l.stack.drop (below.length + 1) = args := by
    rw [hstack, List.append_assoc]
    simp [List.drop_append]
  have htake : l.stack.take below.length = below := by
    rw [hstack, List.append_assoc]
    simp
  unfold lua_call
  rw [if_neg (by omega)]
  simp only [hbase, hget, hfun, hdrop, hbody, htake]


/-! ## Destruction and copy -/

/-- The destructor of an accessor that holds the pending call `f`. -/
theorem destructor_some (s : Selector) (f : Selector.Functor) (l : lua_State)
    (hf : s._functor = some f) :
    s.destructor l = seq (s._traversal ++ [s._get, f 0]) l := by
  rw [seq_plan_then]
  simp only [Selector.destructor, hf, seq_cons_fun, seq_nil_fun, bind_pure]

/-- The destructor of an accessor that holds no pending call. -/
theorem destructor_none (s : Selector) (l : lua_State) (hn : s._functor = none) :
    s.destructor l = .ok l := by
  simp [Selector.destructor, hn]

/-- C1: destruction commits the pending call iff one is present.  With a
pending call `f` the destructor runs the operations of the traversal plan in
plan order, then `get`, then `f` asking for 0 results, and nothing else; with
no pending call it returns the stack machine untouched. -/
theorem destructor_commits_pending_call (s : Selector) (l : lua_State) :
    (∀ f, s._functor = some f →
      s.destructor l = seq (s._traversal ++ [s._get, f 0]) l) ∧
    (s._functor = none → s.destructor l = .ok l) :=
  ⟨fun f hf => destructor_some s f l hf, fun hn => destructor_none s l hn⟩

/-- C3: the copy of an accessor has the name, environment, traversal plan,
`get` and `put` of the original and no pending call, whatever the original
holds, so destroying the copy touches nothing.  (The copy constructor only
reads `other`; in the embedding the original is the unchanged argument.) -/
theorem copy_drops_pending_call (s : Selector) (l : lua_State) :
    s.copy._name = s._name ∧ s.copy._state = s._state ∧
    s.copy._traversal = s._traversal ∧ s.copy._get = s._get ∧ s.copy._put = s._put ∧
    s.copy._functor = none ∧ s.copy.destructor l = .ok l :=
  ⟨rfl, rfl, rfl, rfl, rfl, rfl, rfl⟩

/-! ## Assignment -/

/-- C4: value assignment runs the traversal plan in plan order, then `put` on
a producer that pushes exactly `t` each time it is run, then resets the working
area to empty; the accessor (plan and pending call included) is unchanged. -/
theorem value_assignment_sequence (s : Selector) (t : Value) (l : lua_State) :
    s.operator_assign t l =
      (seq (s._traversal ++ [s._put (detail._push t), lua_settop 0]) l).map
        (fun l3 => (s, l3)) ∧
    (∀ l1, detail._push t l1 =
      .ok { l1 with stack := l1.stack ++ [t], trace := l1.trace ++ [Event.push t] }) ∧
    (∀ l2, lua_settop 0 l2 =
      .ok { l2 with stack := [], trace := l2.trace ++ [Event.settop 0] }) ∧
    (∀ s1 l3, s.operator_assign t l = .ok (s1, l3) → s1 = s ∧ l3.stack = []) := by
  refine ⟨?_, fun _ => rfl, lua_settop_zero, ?_⟩
  · rw [seq_plan_then]
    simp only [Selector.operator_assign, seq_cons_fun, seq_nil_fun, bind_pure]
    cases s._traverse l with
    | error e => rfl
    | ok l1 =>
      cases h2 : s._put (detail._push t) l1 with
      | error e => simp [bind, Except.bind, Except.map, h2]
      | ok l2 => simp [bind, Except.bind, Except.map, h2, lua_settop_zero, pure, Except.pure]
  · intro s1 l3 h
    simp only [Selector.operator_assign] at h
    cases h1 : s._traverse l with
    | error e => simp [h1, bind, Except.bind] at h
    | ok l1 =>
      cases h2 : s._put (fun l => detail._push t l) l1 with
      | error e => simp [h1, h2, bind, Except.bind] at h
      | ok l2 =>
        simp [h1, h2, bind, Except.bind, lua_settop_zero, pure, Except.pure] at h
        obtain ⟨hs, hl⟩ := h
        subst hs hl
        exact ⟨rfl, rfl⟩


/-! ## Eager call -/

/-- On success `Call` hands back `nret` values, the accessor as it was and an
empty working area. -/
theorem Call_ok_shape (s : Selector) (args : List Value) (nret : Nat) (l : lua_State)
    (ret : List Value) (s1 : Selector) (l5 : lua_State)
    (h : s.Call args nret l = .ok (ret, s1, l5)) :
    ret.length = nret ∧ s1 = s ∧ l5.stack = [] := by
  simp only [Selector.Call] at h
  cases h1 : s._traverse l with
  | error e => simp [h1, bind, Except.bind] at h
  | ok l1 =>
    cases h2 : s._get l1 with
    | error e => simp [h1, h2, bind, Except.bind] at h
    | ok l2 =>
      cases h3 : detail._push_n args l2 with
      | error e => simp [h1, h2, h3, bind, Except.bind] at h
      | ok l3 =>
        cases h4 : lua_call args.length nret l3 with
        | error e => simp [h1, h2, h3, h4, bind, Except.bind] at h
        | ok l4 =>
          cases h5 : detail._pop_n_reset nret l4 with
          | error e => simp [h1, h2, h3, h4, h5, bind, Except.bind] at h
          | ok r =>
            obtain ⟨ret1, l6⟩ := r
            simp [h1, h2, h3, h4, h5, bind, Except.bind, pure, Except.pure] at h
            obtain ⟨hr, hs, hl⟩ := h
            subst hr hs hl
            obtain ⟨ha, hb⟩ := pop_n_reset_ok nret l4 ret1 l6 h5
            exact ⟨ha, rfl, hb⟩

/-- C6: `Call<Ret...>(args...)` with `k` arguments and `N = sizeof...(Ret)`
runs the traversal plan in order, then `get`, then pushes the `k` arguments in
their given order, then invokes the target with argument count `k` and result
count `N`, then pops `N` values and resets the working area.  On a callable
target it returns exactly the `N` results of the call, in call order.  The
pending call is neither read nor cleared: the accessor comes back unchanged. -/
theorem Call_sequence (s : Selector) (args : List Value) (nret : Nat) (l : lua_State) :
    s.Call args nret l =
      (seq (s._traversal ++ [s._get, detail._push_n args, lua_call args.length nret]) l
        >>= detail._pop_n_reset nret).map (fun r => (r.1, s, r.2)) ∧
    (∀ l2, detail._push_n args l2 =
      .ok { l2 with stack := l2.stack ++ args, trace := l2.trace ++ args.map Event.push }) ∧
    (∀ l2 below ref body rs,
      seq (s._traversal ++ [s._get]) l = .ok l2 →
      l2.stack = below ++ [Value.function ref] →
      l2.functions ref = some body → body args = .ok rs →
      s.Call args nret l =
        .ok (adjustResults nret rs, s,
          { l2 with
            stack := []
            trace := l2.trace ++ args.map Event.push ++
              [Event.call args.length nret, Event.pop nret, Event.settop 0] })) ∧
    (∀ rs, (adjustResults nret rs).length = nret) ∧
    (∀ rs, rs.length = nret → adjustResults nret rs = rs) ∧
    (∀ ret s1 l5, s.Call args nret l = .ok (ret, s1, l5) →
      ret.length = nret ∧ s1 = s ∧ s1._functor = s._functor ∧ l5.stack = []) := by
  refine ⟨?_, push_n_ok args, ?_, adjustResults_length nret, ?_, ?_⟩
  · rw [seq_plan_then]
    simp only [Selector.Call, seq_cons_fun, seq_nil_fun, bind_pure]
    cases s._traverse l with
    | error e => rfl
    | ok l1 =>
      cases h2 : s._get l1 with
      | error e => simp [bind, Except.bind, Except.map, h2]
      | ok l2 =>
        cases h3 : detail._push_n args l2 with
        | error e => simp [bind, Except.bind, Except.map, h2, h3]
        | ok l3 =>
          cases h4 : lua_call args.length nret l3 with
          | error e => simp [bind, Except.bind, Except.map, h2, h3, h4]
          | ok l4 =>
            cases h5 : detail._pop_n_reset nret l4 with
            | error e => simp [bind, Except.bind, Except.map, h2, h3, h4, h5]
            | ok r => simp [bind, Except.bind, Except.map, h2, h3, h4, h5, pure, Except.pure]
  · intro l2 below ref body rs hrun hstack hfun hbody
    rw [seq_plan_then] at hrun
    simp only [seq_cons_fun, seq_nil_fun, bind_pure] at hrun
    cases h1 : s._traverse l with
    | error e => simp [h1, bind, Except.bind] at hrun
    | ok l1 =>
      have h2 : s._get l1 = .ok l2 := by simpa [h1, bind, Except.bind] using hrun
      have h4 := lua_call_ok below args rs ref body nret
        { l2 with stack := l2.stack ++ args, trace := l2.trace ++ args.map Event.push }
        (by simp [hstack]) hfun hbody
      have hlen : ¬ (below ++ adjustResults nret rs).length < nret := by
        simp [adjustResults_length]
      simp only [Selector.Call, h1, h2, push_n_ok, bind, Except.bind, h4,
        detail._pop_n_reset, if_neg hlen, lua_settop_zero, pure, Except.pure]
      simp [adjustResults_length]
  · intro rs hrs
    subst hrs
    exact adjustResults_exact rs
  · intro ret s1 l5 h
    obtain ⟨ha, hb, hc⟩ := Call_ok_shape s args nret l ret s1 l5 h
    exact ⟨ha, hb, by rw [hb], hc⟩


/-! ## Committing a pending call -/

/-- Running the pop of the callable and the reset after it. -/
theorem pop_function_ok (below : List Value) (v : Value) (l : lua_State)
    (h : l.stack = below ++ [v]) :
    detail._pop_function l =
      .ok (v, { l with stack := below, trace := l.trace ++ [Event.pop 1] }) := by
  simp [detail._pop_function, h]

/-- On success the coercion to `sel::function` hands back an accessor with no
pending call and an empty working area. -/
theorem operator_function_ok_shape (s : Selector) (l : lua_State) (ret : Value)
    (s1 : Selector) (l5 : lua_State) (h : s.operator_function l = .ok (ret, s1, l5)) :
    s1._functor = none ∧ s1 = { s with _functor := none } ∧ l5.stack = [] := by
  simp only [Selector.operator_function] at h
  cases h1 : s._traverse l with
  | error e => simp [h1, bind, Except.bind] at h
  | ok l1 =>
    cases h2 : s._get l1 with
    | error e => simp [h1, h2, bind, Except.bind] at h
    | ok l2 =>
      cases hf : s._functor with
      | none =>
        simp only [h1, h2, hf, bind, Except.bind, pure, Except.pure] at h
        cases h4 : detail._pop_function l2 with
        | error e => simp [h4] at h
        | ok r =>
          obtain ⟨v, l4⟩ := r
          simp [h4, lua_settop_zero] at h
          obtain ⟨_, hs, hl⟩ := h
          subst hs hl
          refine ⟨hf, ?_, rfl⟩
          cases s
          simp_all
      | some f =>
        simp only [h1, h2, hf, bind, Except.bind, pure, Except.pure] at h
        cases h3 : f 1 l2 with
        | error e => simp [h3] at h
        | ok l3 =>
          cases h4 : detail._pop_function l3 with
          | error e => simp [h3, h4] at h
          | ok r =>
            obtain ⟨v, l4⟩ := r
            simp [h3, h4, lua_settop_zero] at h
            obtain ⟨_, hs, hl⟩ := h
            subst hs hl
            exact ⟨rfl, rfl, rfl⟩

/-- The coercion to `sel::function` of an accessor that holds the pending
call `f`. -/
theorem operator_function_some (s : Selector) (f : Selector.Functor) (l : lua_State)
    (hf : s._functor = some f) :
    s.operator_function l = (do
      let l3 ← seq (s._traversal ++ [s._get, f 1]) l
      let (ret, l4) ← detail._pop_function l3
      let l5 ← lua_settop 0 l4
      pure (ret, { s with _functor := none }, l5)) := by
  rw [seq_plan_then]
  simp only [Selector.operator_function, hf, seq_cons_fun, seq_nil_fun, bind_pure]
  cases s._traverse l with
  | error e => rfl
  | ok l1 =>
    cases h2 : s._get l1 with
    | error e => simp [bind, Except.bind, h2]
    | ok l2 =>
      cases h3 : f 1 l2 with
      | error e => simp [bind, Except.bind, h2, h3]
      | ok l3 => simp [bind, Except.bind, h2, h3, pure, Except.pure]

/-- The coercion to `sel::function` of an accessor that holds no pending call. -/
theorem operator_function_none (s : Selector) (l : lua_State) (hn : s._functor = none) :
    s.operator_function l = (do
      let l3 ← seq (s._traversal ++ [s._get]) l
      let (ret, l4) ← detail._pop_function l3
      let l5 ← lua_settop 0 l4
      pure (ret, s, l5)) := by
  rw [seq_plan_then]
  simp only [Selector.operator_function, hn, seq_cons_fun, seq_nil_fun, bind_pure]
  cases s._traverse l with
  | error e => rfl
  | ok l1 =>
    cases h2 : s._get l1 with
    | error e => simp [bind, Except.bind, h2]
    | ok l2 => simp [bind, Except.bind, h2, pure, Except.pure]

/-- C7: coercion to `sel::function<R(Args...)>` runs the traversal plan in
order and then `get`; with a pending call `f` it then runs `f` once asking for
exactly 1 result and clears the pending call, with none it invokes nothing; in
both cases it then pops one value as the callable and resets the working area
to empty. -/
theorem function_coercion_sequence (s : Selector) (l : lua_State) :
    (∀ f, s._functor = some f →
      s.operator_function l = (do
        let l3 ← seq (s._traversal ++ [s._get, f 1]) l
        let (ret, l4) ← detail._pop_function l3
        let l5 ← lua_settop 0 l4
        pure (ret, { s with _functor := none }, l5))) ∧
    (s._functor = none →
      s.operator_function l = (do
        let l3 ← seq (s._traversal ++ [s._get]) l
        let (ret, l4) ← detail._pop_function l3
        let l5 ← lua_settop 0 l4
        pure (ret, s, l5))) ∧
    (∀ l3 below v, l3.stack = below ++ [v] →
      detail._pop_function l3 =
        .ok (v, { l3 with stack := below, trace := l3.trace ++ [Event.pop 1] })) ∧
    (∀ ret s1 l5, s.operator_function l = .ok (ret, s1, l5) →
      s1._functor = none ∧ l5.stack = []) := by
  refine ⟨fun f hf => operator_function_some s f l hf,
    fun hn => operator_function_none s l hn,
    fun l3 below v h => pop_function_ok below v l3 h, ?_⟩
  intro ret s1 l5 h
  obtain ⟨ha, _, hc⟩ := operator_function_ok_shape s l ret s1 l5 h
  exact ⟨ha, hc⟩


/-! ## Typed-result extraction -/

/-- The extraction `GetTuple` of an accessor that holds the pending call `f`. -/
theorem GetTuple_some (s : Selector) (f : Selector.Functor) (nret : Nat) (l : lua_State)
    (hf : s._functor = some f) :
    s.GetTuple nret l =
      (seq (s._traversal ++ [s._get, f nret]) l >>= detail._pop_n_reset nret).map
        (fun r => (r.1, s, r.2)) := by
  rw [seq_plan_then]
  simp only [Selector.GetTuple, hf, seq_cons_fun, seq_nil_fun, bind_pure]
  cases s._traverse l with
  | error e => rfl
  | ok l1 =>
    cases h2 : s._get l1 with
    | error e => simp [bind, Except.bind, Except.map, h2]
    | ok l2 =>
      cases h3 : f nret l2 with
      | error e => simp [bind, Except.bind, Except.map, h2, h3]
      | ok l3 =>
        cases h4 : detail._pop_n_reset nret l3 with
        | error e => simp [bind, Except.bind, Except.map, h2, h3, h4]
        | ok r => simp [bind, Except.bind, Except.map, h2, h3, h4, pure, Except.pure]

/-- The extraction `GetTuple` of an accessor that holds no pending call. -/
theorem GetTuple_none (s : Selector) (nret : Nat) (l : lua_State)
    (hn : s._functor = none) :
    s.GetTuple nret l =
      (seq (s._traversal ++ [s._get]) l >>= fun _ => .error Error.nullFunctor) := by
  rw [seq_plan_then]
  simp only [Selector.GetTuple, hn, seq_cons_fun, seq_nil_fun, bind_pure]
  cases s._traverse l with
  | error e => rfl
  | ok l1 =>
    cases h2 : s._get l1 with
    | error e => simp [bind, Except.bind, h2]
    | ok l2 => simp [bind, Except.bind, h2]

/-- On success `GetTuple` hands back the accessor as it was, pending call
included, and an empty working area. -/
theorem GetTuple_ok_shape (s : Selector) (nret : Nat) (l : lua_State)
    (ret : List Value) (s1 : Selector) (l4 : lua_State)
    (h : s.GetTuple nret l = .ok (ret, s1, l4)) :
    ret.length = nret ∧ s1 = s ∧ l4.stack = [] := by
  simp only [Selector.GetTuple] at h
  cases h1 : s._traverse l with
  | error e => simp [h1, bind, Except.bind] at h
  | ok l1 =>
    cases h2 : s._get l1 with
    | error e => simp [h1, h2, bind, Except.bind] at h
    | ok l2 =>
      cases hf : s._functor with
      | none => simp [h1, h2, hf, bind, Except.bind] at h
      | some f =>
        cases h3 : f nret l2 with
        | error e => simp [h1, h2, hf, h3, bind, Except.bind] at h
        | ok l3 =>
          cases h5 : detail._pop_n_reset nret l3 with
          | error e => simp [h1, h2, hf, h3, h5, bind, Except.bind] at h
          | ok r =>
            obtain ⟨ret1, l6⟩ := r
            simp [h1, h2, hf, h3, h5, bind, Except.bind, pure, Except.pure] at h
            obtain ⟨hr, hs, hl⟩ := h
            subst hr hs hl
            obtain ⟨ha, hb⟩ := pop_n_reset_ok nret l3 ret1 l6 h5
            exact ⟨ha, rfl, hb⟩

/-- C10: `GetTuple<Ret...>()` with a pending call `f` runs the traversal plan,
`get`, `f` asking for exactly `sizeof...(Ret)` results and the pop, and never
takes the failure of an absent pending call; with no pending call (as after the
constructor, or in any copy) it still runs the traversal plan and `get`, then
fails on the empty `_functor`, so it never returns. -/
theorem GetTuple_requires_pending_call (s : Selector) (nret : Nat) (l : lua_State) :
    (∀ f, s._functor = some f →
      s.GetTuple nret l =
        (seq (s._traversal ++ [s._get, f nret]) l >>= detail._pop_n_reset nret).map
          (fun r => (r.1, s, r.2))) ∧
    (s._functor = none →
      s.GetTuple nret l =
        (seq (s._traversal ++ [s._get]) l >>= fun _ => .error Error.nullFunctor)) ∧
    (s._functor = none → ∀ r, s.GetTuple nret l ≠ .ok r) ∧
    (s._functor = none → ∀ l2, seq (s._traversal ++ [s._get]) l = .ok l2 →
      s.GetTuple nret l = .error Error.nullFunctor) ∧
    (∀ name st plan get put, (Selector.ctor name st plan get put)._functor = none) ∧
    s.copy._functor = none := by
  refine ⟨fun f hf => GetTuple_some s f nret l hf, fun hn => GetTuple_none s nret l hn,
    fun hn r => ?_, fun hn l2 h2 => ?_, fun _ _ _ _ _ => rfl, rfl⟩
  · rw [GetTuple_none s nret l hn]
    cases seq (s._traversal ++ [s._get]) l with
    | error e => simp [bind, Except.bind]
    | ok l2 => simp [bind, Except.bind]
  · rw [GetTuple_none s nret l hn, h2]
    rfl


/-! ## Call-intent capture -/

/-- Running a pending call spelled as a list of two operations is running the
two operations at that place of a longer run. -/
theorem seq_flatten (ops : List Fun) (a b : Fun) (f : Fun)
    (hf : ∀ l, f l = seq [a, b] l) (l : lua_State) :
    seq (ops ++ [f]) l = seq (ops ++ [a, b]) l := by
  have hfun : f = seq [a, b] := funext hf
  rw [seq_append, seq_append, hfun]
  simp only [seq_cons_fun, seq_nil_fun, bind_pure]

/-- The call operator stores a functor that pushes the captured arguments and
invokes the target with their count. -/
theorem operator_call_stores (s : Selector) (args : List Value) (l : lua_State) :
    ∃ f, s.operator_call args l = .ok ({ s with _functor := some f }, l) ∧
      ∀ num_ret l1,
        f num_ret l1 = seq [detail._push_tuple args, lua_call args.length num_ret] l1 := by
  refine ⟨_, rfl, fun num_ret l1 => ?_⟩
  simp only [seq_cons_fun, seq_nil_fun, bind_pure]

/-- C9: call-intent capture touches no part of the stack machine, returns the
same accessor with the pending call set, and stores exactly the given
arguments, the result count being an argument of the stored functor.  A second
application before the first is consumed replaces the first without invoking
it: the next commit (destructor, `GetTuple` or coercion to `sel::function`)
pushes the arguments of the second application only and invokes with their
count. -/
theorem call_intent_capture (s : Selector) (args1 args2 : List Value) (nret : Nat)
    (l : lua_State) :
    (∃ f, s.operator_call args2 l = .ok ({ s with _functor := some f }, l) ∧
      ∀ num_ret l1,
        f num_ret l1 = seq [detail._push_tuple args2, lua_call args2.length num_ret] l1) ∧
    (∀ l1, detail._push_tuple args2 l1 =
      .ok { l1 with stack := l1.stack ++ args2, trace := l1.trace ++ args2.map Event.push }) ∧
    (s.operator_call args1 l >>= fun r => r.1.operator_call args2 r.2)
      = s.operator_call args2 l ∧
    (∀ s2 l2, (s.operator_call args1 l >>= fun r => r.1.operator_call args2 r.2)
        = .ok (s2, l2) →
      l2 = l ∧ s2._name = s._name ∧ s2._traversal = s._traversal ∧
      s2._get = s._get ∧ s2._put = s._put ∧
      s2.destructor l2 =
        seq (s._traversal ++ [s._get, detail._push_tuple args2, lua_call args2.length 0]) l ∧
      s2.GetTuple nret l2 =
        (seq (s._traversal ++
            [s._get, detail._push_tuple args2, lua_call args2.length nret]) l
          >>= detail._pop_n_reset nret).map (fun r => (r.1, s2, r.2)) ∧
      s2.operator_function l2 = (do
        let l3 ← seq (s._traversal ++
          [s._get, detail._push_tuple args2, lua_call args2.length 1]) l
        let (ret, l4) ← detail._pop_function l3
        let l5 ← lua_settop 0 l4
        pure (ret, { s2 with _functor := none }, l5))) := by
  refine ⟨operator_call_stores s args2 l, push_n_ok args2, rfl, ?_⟩
  intro s2 l2 h
  obtain ⟨f, hf, hrun⟩ := operator_call_stores s args2 l
  have h2 : (s.operator_call args1 l >>= fun r => r.1.operator_call args2 r.2)
      = s.operator_call args2 l := rfl
  rw [h2, hf] at h
  simp only [Except.ok.injEq, Prod.mk.injEq] at h
  obtain ⟨hs, hl⟩ := h
  subst hs hl
  have key : ∀ n, seq (s._traversal ++ [s._get, f n]) l =
      seq (s._traversal ++ [s._get, detail._push_tuple args2, lua_call args2.length n]) l := by
    intro n
    have := seq_flatten (s._traversal ++ [s._get]) (detail._push_tuple args2)
      (lua_call args2.length n) (f n) (hrun n) l
    simpa [List.append_assoc] using this
  refine ⟨rfl, rfl, rfl, rfl, rfl, ?_, ?_, ?_⟩
  · rw [destructor_some _ f l rfl]
    exact key 0
  · rw [GetTuple_some _ f nret l rfl]
    simp only [key]
  · rw [operator_function_some _ f l rfl]
    simp only [key]

/-! ## Equality -/

/-- The `const char*` overloads run the string conversion of the accessor and
are true iff its result equals `c`, in both operand orders. -/
theorem cstr_equality_converts (toStdString : Conversion String)
    (s : Selector) (c : String) (l : lua_State) :
    operator_eq_sel_cstr toStdString s c l =
      (toStdString s l).map (fun r => (decide (r.1 = c), r.2)) ∧
    operator_eq_cstr_sel toStdString c s l =
      (toStdString s l).map (fun r => (decide (r.1 = c), r.2)) := by
  have hc : operator_eq_sel_cstr toStdString s c l =
      (toStdString s l).map (fun r => (decide (r.1 = c), r.2)) := by
    simp only [operator_eq_sel_cstr]
    cases toStdString s l with
    | error e => rfl
    | ok r => simp [bind, Except.bind, Except.map, pure, Except.pure, eq_comm]
  exact ⟨hc, hc⟩

/-- The templated overloads by operand: an rvalue or const lvalue operand is
compared with the converted accessor; a non-const lvalue operand is compared
with the storage of the accessor object, whatever the conversion would give,
and the stack machine is not touched; the two operand orders always agree. -/
theorem template_equality_by_operand {T : Type} [BEq T] (operand : Operand)
    (toT : Conversion T) (readAs : Selector → T) (s : Selector) (t : T) (l : lua_State) :
    operator_eq_sel_T Operand.rvalue toT readAs s t l =
      (toT s l).map (fun r => (r.1 == t, r.2)) ∧
    operator_eq_sel_T Operand.const_lvalue toT readAs s t l =
      (toT s l).map (fun r => (r.1 == t, r.2)) ∧
    operator_eq_sel_T Operand.lvalue toT readAs s t l = .ok (readAs s == t, s, l) ∧
    operator_eq_sel_T operand toT readAs s t l =
      operator_eq_T_sel operand toT readAs t s l := by
  have ht : operator_eq_sel_T Operand.rvalue toT readAs s t l =
      (toT s l).map (fun r => (r.1 == t, r.2)) := by
    simp only [operator_eq_sel_T, functional_cast]
    cases toT s l with
    | error e => rfl
    | ok r => simp [bind, Except.bind, Except.map, pure, Except.pure]
  exact ⟨ht, ht, rfl, rfl⟩

/-- C8 (evaluation at the failing input): the accessor `greeting` is bound to
the string `foo`, so its string conversion gives `foo` and `greeting == "foo"`
through the `const char*` overload is true.  Compared with a non-const
`std::string` variable holding `foo`, in either operand order, the templated
overload deduces `T = std::string&`, runs no conversion (the stack machine is
untouched) and answers false; it answers true for a variable holding the
accessor's own name.  With the same string passed as an rvalue the conversion
runs and the answer is true. -/
theorem equality_with_lvalue_operand_skips_conversion :
    demo.observeResult (Selector.operator_string demo.greeting demo.l0) =
      some ("foo", false, [], [Event.deferred "get greeting", Event.settop 0]) ∧
    demo.observeResult
        (operator_eq_sel_cstr Selector.operator_string demo.greeting "foo" demo.l0) =
      some (true, false, [], [Event.deferred "get greeting", Event.settop 0]) ∧
    demo.observeResult
        (operator_eq_sel_T Operand.lvalue Selector.operator_string
          Selector.read_as_string demo.greeting "foo" demo.l0) =
      some (false, false, [], []) ∧
    demo.observeResult
        (operator_eq_T_sel Operand.lvalue Selector.operator_string
          Selector.read_as_string "foo" demo.greeting demo.l0) =
      some (false, false, [], []) ∧
    demo.observeResult
        (operator_eq_sel_T Operand.lvalue Selector.operator_string
          Selector.read_as_string demo.greeting "greeting" demo.l0) =
      some (true, false, [], []) ∧
    demo.observeResult
        (operator_eq_sel_T Operand.rvalue Selector.operator_string
          Selector.read_as_string demo.greeting "foo" demo.l0) =
      some (true, false, [], [Event.deferred "get greeting", Event.settop 0]) :=
  ⟨by decide, by decide, by decide, by decide, by decide, by decide⟩

/-! ## The working area after a terminal operation -/

/-- A `put`-based registration followed by the reset leaves the working area
empty: the shared tail of `operator=(T)`, `SetObj` and `SetClass`. -/
theorem put_then_reset_shape (s : Selector) (push : Fun) (l : lua_State)
    (s1 : Selector) (l3 : lua_State)
    (h : (do
      let l1 ← s._traverse l
      let l2 ← s._put push l1
      let l3 ← lua_settop 0 l2
      pure (s, l3) : Except Error (Selector × lua_State)) = .ok (s1, l3)) :
    s1 = s ∧ l3.stack = [] := by
  cases h1 : s._traverse l with
  | error e => simp [h1, bind, Except.bind] at h
  | ok l1 =>
    cases h2 : s._put push l1 with
    | error e => simp [h1, h2, bind, Except.bind] at h
    | ok l2 =>
      simp [h1, h2, bind, Except.bind, lua_settop_zero, pure, Except.pure] at h
      obtain ⟨hs, hl⟩ := h
      subst hs hl
      exact ⟨rfl, rfl⟩

/-- The terminal operations that end with a reset hand back an empty working
area whenever they return, for every traversal plan and every `get`, `put`:
value assignment, `SetObj`, `SetClass`, `Call`, `GetTuple` and the coercion to
`sel::function`. -/
theorem resetting_operations_leave_empty (s : Selector) (l : lua_State) :
    (∀ t s1 l1, s.operator_assign t l = .ok (s1, l1) → l1.stack = []) ∧
    (∀ t funs s1 l1, s.SetObj t funs l = .ok (s1, l1) → l1.stack = []) ∧
    (∀ funs s1 l1, s.SetClass funs l = .ok (s1, l1) → l1.stack = []) ∧
    (∀ args nret ret s1 l1, s.Call args nret l = .ok (ret, s1, l1) → l1.stack = []) ∧
    (∀ nret ret s1 l1, s.GetTuple nret l = .ok (ret, s1, l1) → l1.stack = []) ∧
    (∀ ret s1 l1, s.operator_function l = .ok (ret, s1, l1) → l1.stack = []) :=
  ⟨fun _ s1 l1 h => (put_then_reset_shape s _ l s1 l1 h).2,
   fun _ _ s1 l1 h => (put_then_reset_shape s _ l s1 l1 h).2,
   fun _ s1 l1 h => (put_then_reset_shape s _ l s1 l1 h).2,
   fun args nret ret s1 l1 h => (Call_ok_shape s args nret l ret s1 l1 h).2.2,
   fun nret ret s1 l1 h => (GetTuple_ok_shape s nret l ret s1 l1 h).2.2,
   fun ret s1 l1 h => (operator_function_ok_shape s l ret s1 l1 h).2.2⟩

/-- The native-callable assignments hand back whatever the traversal plan and
`put` left in the working area: there is no reset after `put`. -/
theorem native_callable_assignment_sequence (s : Selector) (f : NativeFun) (l : lua_State) :
    s.operator_assign_function f l =
      (seq (s._traversal ++ [s._put (s._state.Register f)]) l).map (fun l2 => (s, l2)) ∧
    s.operator_assign_fnptr f l =
      (seq (s._traversal ++ [s._put (s._state.Register f)]) l).map (fun l2 => (s, l2)) := by
  have h : s.operator_assign_function f l =
      (seq (s._traversal ++ [s._put (s._state.Register f)]) l).map (fun l2 => (s, l2)) := by
    rw [seq_plan_then]
    simp only [Selector.operator_assign_function, seq_cons_fun, seq_nil_fun, bind_pure]
    cases s._traverse l with
    | error e => rfl
    | ok l1 =>
      cases h2 : s._put (s._state.Register f) l1 with
      | error e => simp [bind, Except.bind, Except.map, h2]
      | ok l2 => simp [bind, Except.bind, Except.map, h2, pure, Except.pure]
  exact ⟨h, h⟩

/-- C5 (evaluation at the failing inputs): on the chained accessor
`lib["add"]`, whose plan pushes the container `lib`, the function-pointer
assignment, the `std::function` assignment and the destructor's call commit all
return with the container still in the working area, while the value
assignment on the same accessor returns with the working area empty. -/
theorem working_area_not_reset_by_function_assignment_and_destructor :
    demo.observeAssign (demo.libAdd.operator_assign_fnptr 42 demo.l0) =
      some (false, [Value.table 1],
        [Event.deferred "get lib", Event.push (Value.function 42),
         Event.deferred "put lib.add"]) ∧
    demo.observeAssign (demo.libAdd.operator_assign_function 42 demo.l0) =
      some (false, [Value.table 1],
        [Event.deferred "get lib", Event.push (Value.function 42),
         Event.deferred "put lib.add"]) ∧
    demo.observe (demo.libAddCalled.destructor demo.l0) =
      some ([Value.table 1],
        [Event.deferred "get lib", Event.deferred "get lib.add",
         Event.push (Value.integer 2), Event.push (Value.integer 3), Event.call 2 0]) ∧
    demo.observeAssign (demo.libAdd.operator_assign (Value.integer 5) demo.l0) =
      some (false, [],
        [Event.deferred "get lib", Event.push (Value.integer 5),
         Event.deferred "put lib.add", Event.settop 0]) := by
  decide

/-- C2 (evaluation at the failing input): after the call-intent `add(2, 3)`,
`GetTuple<int>()` invokes the call and the destructor then invokes it a second
time, because `GetTuple` leaves `_functor` set; after the coercion to
`sel::function` the destructor invokes nothing. -/
theorem GetTuple_then_destructor_invokes_twice :
    demo.observeResult (demo.addCalled.GetTuple 1 demo.l0) =
      some ([Value.integer 5], true, [],
        [Event.deferred "get add", Event.push (Value.integer 2),
         Event.push (Value.integer 3), Event.call 2 1, Event.pop 1, Event.settop 0]) ∧
    demo.observe demo.lifetimeGetTuple =
      some ([],
        [Event.deferred "get add", Event.push (Value.integer 2),
         Event.push (Value.integer 3), Event.call 2 1, Event.pop 1, Event.settop 0,
         Event.deferred "get add", Event.push (Value.integer 2),
         Event.push (Value.integer 3), Event.call 2 0]) ∧
    (demo.observe demo.lifetimeGetTuple).map (fun r => demo.callCount r.2) = some 2 ∧
    (demo.observe demo.lifetimeFunction).map (fun r => demo.callCount r.2) = some 1 := by
  decide


/-! ## The theorems at concrete inputs -/

/-- C1 at `lib["add"](2, 3)` going out of scope, and at `lib["add"]` with no
call-intent. -/
theorem destructor_commits_pending_call_witness :
    (demo.libAddCalled._functor = some (demo.pendingOf demo.libAddCalled) ∧
      demo.libAddCalled.destructor demo.l0 =
        seq (demo.libAddCalled._traversal ++
          [demo.libAddCalled._get, demo.pendingOf demo.libAddCalled 0]) demo.l0) ∧
    (demo.libAdd._functor = none ∧ demo.libAdd.destructor demo.l0 = .ok demo.l0) ∧
    demo.observe (demo.libAddCalled.destructor demo.l0) =
      some ([Value.table 1],
        [Event.deferred "get lib", Event.deferred "get lib.add",
         Event.push (Value.integer 2), Event.push (Value.integer 3), Event.call 2 0]) :=
  ⟨⟨rfl, (destructor_commits_pending_call demo.libAddCalled demo.l0).1 _ rfl⟩,
   ⟨rfl, (destructor_commits_pending_call demo.libAdd demo.l0).2 rfl⟩,
   by decide⟩

/-- C3 at `lib["add"](2, 3)`: the copy holds no call and its destruction
leaves the stack machine as it was. -/
theorem copy_drops_pending_call_witness :
    demo.libAddCalled._functor.isSome = true ∧
    demo.libAddCalled.copy._functor = none ∧
    demo.libAddCalled.copy.destructor demo.l0 = .ok demo.l0 :=
  ⟨by decide, (copy_drops_pending_call demo.libAddCalled demo.l0).2.2.2.2.2.1,
   (copy_drops_pending_call demo.libAddCalled demo.l0).2.2.2.2.2.2⟩

/-- C4 at `lib["add"] = 5`. -/
theorem value_assignment_sequence_witness :
    demo.libAdd.operator_assign (Value.integer 5) demo.l0 =
      .ok (demo.libAdd, demo.ctx []
        [Event.deferred "get lib", Event.push (Value.integer 5),
         Event.deferred "put lib.add", Event.settop 0]) ∧
    (demo.libAdd = demo.libAdd ∧
      (demo.ctx []
        [Event.deferred "get lib", Event.push (Value.integer 5),
         Event.deferred "put lib.add", Event.settop 0]).stack = []) :=
  ⟨rfl, (value_assignment_sequence demo.libAdd (Value.integer 5) demo.l0).2.2.2 _ _ rfl⟩

/-- C6 at `lib["add"].Call<int>(2, 3)`: the result is the one value 5. -/
theorem Call_sequence_witness :
    seq (demo.libAdd._traversal ++ [demo.libAdd._get]) demo.l0 =
      .ok (demo.ctx [Value.table 1, Value.function 7]
        [Event.deferred "get lib", Event.deferred "get lib.add"]) ∧
    demo.libAdd.Call [Value.integer 2, Value.integer 3] 1 demo.l0 =
      .ok (adjustResults 1 [Value.integer 5], demo.libAdd,
        demo.ctx []
          [Event.deferred "get lib", Event.deferred "get lib.add",
           Event.push (Value.integer 2), Event.push (Value.integer 3),
           Event.call 2 1, Event.pop 1, Event.settop 0]) ∧
    demo.observeResult (demo.libAdd.Call [Value.integer 2, Value.integer 3] 1 demo.l0) =
      some ([Value.integer 5], false, [],
        [Event.deferred "get lib", Event.deferred "get lib.add",
         Event.push (Value.integer 2), Event.push (Value.integer 3),
         Event.call 2 1, Event.pop 1, Event.settop 0]) :=
  ⟨rfl,
   (Call_sequence demo.libAdd [Value.integer 2, Value.integer 3] 1 demo.l0).2.2.1
     (demo.ctx [Value.table 1, Value.function 7]
        [Event.deferred "get lib", Event.deferred "get lib.add"])
     [Value.table 1] 7 (fun args => .ok [Value.integer (demo.sumInts args)])
     [Value.integer 5] rfl rfl rfl rfl,
   by decide⟩

/-- C7 at `add(2, 3)` coerced to `sel::function` (pending call committed with
one result and cleared) and at `add` coerced with no call-intent. -/
theorem function_coercion_sequence_witness :
    (demo.addCalled._functor = some (demo.pendingOf demo.addCalled) ∧
      demo.addCalled.operator_function demo.l0 = (do
        let l3 ← seq (demo.addCalled._traversal ++
          [demo.addCalled._get, demo.pendingOf demo.addCalled 1]) demo.l0
        let (ret, l4) ← detail._pop_function l3
        let l5 ← lua_settop 0 l4
        pure (ret, { demo.addCalled with _functor := none }, l5))) ∧
    demo.observeResult (demo.addCalled.operator_function demo.l0) =
      some (Value.integer 5, false, [],
        [Event.deferred "get add", Event.push (Value.integer 2),
         Event.push (Value.integer 3), Event.call 2 1, Event.pop 1, Event.settop 0]) ∧
    demo.observeResult (demo.add.operator_function demo.l0) =
      some (Value.function 7, false, [],
        [Event.deferred "get add", Event.pop 1, Event.settop 0]) :=
  ⟨⟨rfl, (function_coercion_sequence demo.addCalled demo.l0).1 _ rfl⟩, by decide, by decide⟩

/-- C9 at `lib["add"](1)` followed by `lib["add"](2, 3)`: the commits push 2
and 3 only and invoke with two arguments. -/
theorem call_intent_capture_witness :
    (demo.libAdd.operator_call [Value.integer 1] demo.l0 >>=
        fun r => r.1.operator_call [Value.integer 2, Value.integer 3] r.2) =
      .ok (demo.libAddCalledTwice, demo.l0) ∧
    demo.libAddCalledTwice.destructor demo.l0 =
      seq (demo.libAdd._traversal ++ [demo.libAdd._get,
        detail._push_tuple [Value.integer 2, Value.integer 3], lua_call 2 0]) demo.l0 ∧
    demo.observe (demo.libAddCalledTwice.destructor demo.l0) =
      some ([Value.table 1],
        [Event.deferred "get lib", Event.deferred "get lib.add",
         Event.push (Value.integer 2), Event.push (Value.integer 3), Event.call 2 0]) ∧
    demo.observeResult (demo.libAddCalledTwice.GetTuple 1 demo.l0) =
      some ([Value.integer 5], true, [],
        [Event.deferred "get lib", Event.deferred "get lib.add",
         Event.push (Value.integer 2), Event.push (Value.integer 3),
         Event.call 2 1, Event.pop 1, Event.settop 0]) :=
  ⟨rfl,
   ((call_intent_capture demo.libAdd [Value.integer 1]
      [Value.integer 2, Value.integer 3] 1 demo.l0).2.2.2
      demo.libAddCalledTwice demo.l0 rfl).2.2.2.2.2.1,
   by decide, by decide⟩

/-- C10 at `lib["add"](2, 3).GetTuple<int>()` (returns 5) and at
`lib["add"].GetTuple<int>()` with no call-intent (fails after the plan and
`get` have run). -/
theorem GetTuple_requires_pending_call_witness :
    (demo.libAddCalled._functor = some (demo.pendingOf demo.libAddCalled) ∧
      demo.libAddCalled.GetTuple 1 demo.l0 =
        (seq (demo.libAddCalled._traversal ++
            [demo.libAddCalled._get, demo.pendingOf demo.libAddCalled 1]) demo.l0
          >>= detail._pop_n_reset 1).map (fun r => (r.1, demo.libAddCalled, r.2))) ∧
    (demo.libAdd._functor = none ∧
      seq (demo.libAdd._traversal ++ [demo.libAdd._get]) demo.l0 =
        .ok (demo.ctx [Value.table 1, Value.function 7]
          [Event.deferred "get lib", Event.deferred "get lib.add"]) ∧
      demo.libAdd.GetTuple 1 demo.l0 = .error Error.nullFunctor) ∧
    demo.observeResult (demo.libAddCalled.GetTuple 1 demo.l0) =
      some ([Value.integer 5], true, [],
        [Event.deferred "get lib", Event.deferred "get lib.add",
         Event.push (Value.integer 2), Event.push (Value.integer 3),
         Event.call 2 1, Event.pop 1, Event.settop 0]) :=
  ⟨⟨rfl, (GetTuple_requires_pending_call demo.libAddCalled 1 demo.l0).1 _ rfl⟩,
   ⟨rfl, rfl, (GetTuple_requires_pending_call demo.libAdd 1 demo.l0).2.2.2.1 rfl _ rfl⟩,
   by decide⟩

end sel
